import Mathlib

set_option autoImplicit false

/-!
Verification development for the custom-atomspace-builder service.

This file gives a shallow embedding of the parts of the code base that the
frozen claims are about:

* the durable history file and selected-job pointer together with the
  resolution helpers (`app/utils/file_utils.py`, `app/utils/helpers.py`,
  `app/services/graph_info_service.py`),
* the upload-session store (`app/core/session_manager.py`,
  `app/api/upload.py`, `app/core/background_tasks.py`),
* the Neo4j connection manager (`app/core/database.py`),
* the refactored job pipeline (`app/api/jobs.py`) and the legacy
  stage-and-bulk-load step (`app.py`).

Machine state touched by the code (directory entries under the base output
directory, the `history.json` content, the `selected_job.txt` content,
the in-memory session map) is made explicit; external collaborators
(loader subprocess, Neo4j driver, annotation HTTP endpoint) are passed in
as explicit outcome parameters, mirroring the interfaces in §6 of the spec.
-/

namespace AtomSpace

/-- One record of `history.json`'s `history` list (a job's computed
statistics).  Only the fields the claims mention are carried; the record is
treated as an opaque value by every operation modelled here. -/
structure JobRecord where
  jobId : String
  writerType : String
  nodeCount : Nat
  edgeCount : Nat
  deriving DecidableEq, Repr

/-- Content of the durable `history.json` file: either malformed JSON or a
parsed object `{"selected_job_id": ..., "history": [...]}`. -/
inductive HistFile
  | malformed
  | parsed (selectedJobId : String) (records : List JobRecord)
  deriving DecidableEq, Repr

/-- Structured result of a Neo4j bulk load
(`app/models/schemas.py: Neo4jLoadResult`, fields restricted to the ones
the pipeline inspects). -/
structure NeoLoadResult where
  status : String
  message : String
  deriving DecidableEq, Repr

/-- A direct child of the base output directory as seen by
`glob.glob(os.path.join(base_dir, "*"))`: its basename, its modification
time and whether it is a directory. -/
structure Entry where
  name : String
  mtime : Nat
  isDir : Bool
  deriving DecidableEq, Repr

/-- The durable state under the base output directory:

* `entries` — the direct children (job output directories, but also the
  `uploads` staging directory and plain files such as `history.json`),
  in directory-listing order;
* `historyFile` — content of `history.json` (`none` when absent);
* `selectedFile` — content of `selected_job.txt`, already stripped
  (`none` when absent);
* `neoResults` — for each job directory, the persisted
  `neo4j_load_result.json` content, when present. -/
structure DiskState where
  entries : List Entry
  historyFile : Option HistFile
  selectedFile : Option String
  neoResults : List (String × NeoLoadResult)
  deriving DecidableEq, Repr

/-- `os.path.exists(os.path.join(base_output_dir, name))`. -/
def pathExists (d : DiskState) (name : String) : Bool :=
  d.entries.any (fun e => e.name == name)

/-- `shutil.rmtree` of a job output directory: the entry disappears and so
does everything stored inside it (here: the persisted Neo4j load result). -/
def removeJobDir (d : DiskState) (name : String) : DiskState :=
  { d with
    entries := d.entries.filter (fun e => !(e.name == name)),
    neoResults := d.neoResults.filter (fun p => !(p.1 == name)) }

/-- `file_utils.get_latest_directory`: `glob` every child of the base
directory, sort by modification time descending (Python's sort is stable,
so among equal mtimes the earliest listed child wins) and take the head.
Note the `glob("*")` pattern matches plain files as well as directories. -/
def get_latest_directory (d : DiskState) : Option Entry :=
  match d.entries with
  | [] => none
  | e :: es => some (es.foldl (fun best x => if best.mtime < x.mtime then x else best) e)

/-- What `load_json_file` hands back for the history file: `{}` on a missing
or malformed file, otherwise the parsed object. -/
inductive LoadedJson
  | emptyDict
  | parsed (selectedJobId : String) (records : List JobRecord)
  deriving DecidableEq, Repr

/-- `file_utils.load_json_file` applied to `history.json`: catches
`FileNotFoundError` and `json.JSONDecodeError` and returns `{}`. -/
def load_json_file : Option HistFile → LoadedJson
  | none => .emptyDict
  | some .malformed => .emptyDict
  | some (.parsed s r) => .parsed s r

/-- `GraphInfoService.get_history`: load the history file; a falsy result
(the `{}` produced on absence/corruption) is replaced by the empty skeleton
`{"selected_job_id": "", "history": []}`. -/
def get_history (d : DiskState) : String × List JobRecord :=
  match load_json_file d.historyFile with
  | .emptyDict => ("", [])
  | .parsed s r => (s, r)

/-- `GraphInfoService.save_graph_info`: reload the history, prepend the new
record and rewrite the whole file.  (The copy written to the job's own
`graph_info.json` is not tracked.) -/
def save_graph_info (d : DiskState) (gi : JobRecord) : DiskState :=
  let h := get_history d
  { d with historyFile := some (.parsed h.1 (gi :: h.2)) }

/-- `GraphInfoService.get_selected_job_id`: the stripped content of
`selected_job.txt`, or `None` when the file is absent. -/
def get_selected_job_id (d : DiskState) : Option String :=
  d.selectedFile

/-- `GraphInfoService.save_selected_job_id`: overwrite `selected_job.txt`. -/
def save_selected_job_id (d : DiskState) (jobId : String) : DiskState :=
  { d with selectedFile := some jobId }

/-- Third resolution tier of `helpers.get_job_id_to_use`: the basename of
whatever `get_latest_directory` returns, or `None`. -/
def latestTier (d : DiskState) : Option String :=
  match get_latest_directory d with
  | some e => some e.name
  | none => none

/-- Second resolution tier of `helpers.get_job_id_to_use`: the persisted
selection when it is truthy and its output directory exists. -/
def selectedTier (d : DiskState) : Option String :=
  match get_selected_job_id d with
  | some s => if s != "" && pathExists d s then some s else latestTier d
  | none => latestTier d

/-- `helpers.get_job_id_to_use`: explicit id (when truthy and its directory
exists) > persisted selection (when valid) > most-recently-modified child of
the base output directory > `None`. -/
def get_job_id_to_use (d : DiskState) (jobId : Option String) : Option String :=
  match jobId with
  | some j => if j != "" && pathExists d j then some j else selectedTier d
  | none => selectedTier d

/-! ## Upload sessions (`app/core/session_manager.py`, `app/api/upload.py`) -/

/-- `app/models/enums.py: SessionStatus`. -/
inductive SessionStatus
  | active
  | expired
  | consumed
  deriving DecidableEq, Repr

/-- `app/models/schemas.py: UploadSession`, fields the manager reads. -/
structure Session where
  expiresAt : Nat
  uploadedFiles : List String
  status : SessionStatus
  deriving DecidableEq, Repr

/-- In-memory state of `SessionManager` plus the upload directories that
exist on disk: `sessions` mirrors the `self.sessions` dict (keys unique),
`dirs` the set of session ids whose staging directory exists. -/
structure SessionMgr where
  sessions : List (String × Session)
  dirs : List String
  deriving DecidableEq, Repr

/-- Replace the session stored under `id` (mirrors mutating the session
object held in the dict). -/
def setSession (m : SessionMgr) (id : String) (f : Session → Session) : SessionMgr :=
  { m with sessions := m.sessions.map (fun p => if p.1 = id then (p.1, f p.2) else p) }

/-- `SessionManager.get_session` at time `now`: unknown ids give `None`;
an expired session is marked expired as a side effect and `None` returned;
otherwise the live session is returned. -/
def get_session (m : SessionMgr) (now : Nat) (id : String) : Option Session × SessionMgr :=
  match m.sessions.lookup id with
  | none => (none, m)
  | some s =>
    if now < s.expiresAt then (some s, m)
    else (none, setSession m id (fun t => { t with status := .expired }))

/-- `SessionManager.add_file_to_session`: silently ignores a filename that
is already present, otherwise appends it to the session's list. -/
def add_file_to_session (m : SessionMgr) (now : Nat) (id filename : String) :
    Bool × SessionMgr :=
  match get_session m now id with
  | (none, m1) => (false, m1)
  | (some s, m1) =>
    if filename ∈ s.uploadedFiles then (true, m1)
    else (true, setSession m1 id (fun t => { t with uploadedFiles := t.uploadedFiles ++ [filename] }))

/-- `SessionManager.consume_session`. -/
def consume_session (m : SessionMgr) (now : Nat) (id : String) : SessionMgr :=
  match get_session m now id with
  | (none, m1) => m1
  | (some _, m1) => setSession m1 id (fun t => { t with status := .consumed })

/-- `SessionManager.cleanup_session`: `shutil.rmtree(session_dir,
ignore_errors=True)` followed by deleting the dict entry.  `ok` records
whether the OS delete actually succeeded — with `ignore_errors=True` a
failure is swallowed and only leaves the directory behind. -/
def cleanup_session (ok : Bool) (m : SessionMgr) (id : String) : SessionMgr :=
  let m1 := if ok then { m with dirs := m.dirs.filter (fun x => !(x == id)) } else m
  { m1 with sessions := m1.sessions.filter (fun p => !(p.1 == id)) }

/-- `SessionManager.cleanup_expired_sessions`, the body of the periodic
sweep (`background_tasks.session_cleanup_worker`): collect the ids of
active sessions whose expiry has passed, then for each one mark it expired
and clean it up; return how many were collected.  `okf` gives the OS
outcome of each session's directory delete. -/
def cleanup_expired_sessions (okf : String → Bool) (m : SessionMgr) (now : Nat) :
    Nat × SessionMgr :=
  let expired :=
    (m.sessions.filter (fun p => decide (p.2.expiresAt < now) && p.2.status == .active)).map (·.1)
  let final := expired.foldl
    (fun acc id =>
      cleanup_session (okf id) (setSession acc id (fun t => { t with status := .expired })) id)
    m
  (expired.length, final)

/-- Failure raised by the `/api/upload/files` endpoint for one file. -/
inductive UploadErr
  | sessionGone
  | duplicate (filename : String)
  deriving DecidableEq, Repr

/-- Per-file step of `upload.upload_files`: re-read the session, reject a
filename already in the session's list with a duplicate-file error (the
manager state is left as it was), otherwise store the file and append the
name via `add_file_to_session`. -/
def uploadOneFile (m : SessionMgr) (now : Nat) (id filename : String) :
    Option UploadErr × SessionMgr :=
  match get_session m now id with
  | (none, m1) => (some .sessionGone, m1)
  | (some s, m1) =>
    if filename ∈ s.uploadedFiles then (some (.duplicate filename), m1)
    else (none, (add_file_to_session m1 now id filename).2)

/-! ## Neo4j connection manager (`app/core/database.py`) -/

/-- The fields of `Neo4jManager` that `execute_query` reads or writes:
`_initialized` and whether `self.driver` is set. -/
structure NeoState where
  initialized : Bool
  driverSome : Bool
  deriving DecidableEq, Repr

/-- `Neo4jManager.is_connected`. -/
def is_connected (st : NeoState) : Bool :=
  st.initialized && st.driverSome

/-- Outcome of one invocation of the underlying `session.run`: rows, a
`ServiceUnavailable` error, or any other exception. -/
inductive OpErr
  | serviceUnavailable (msg : String)
  | other (msg : String)
  deriving DecidableEq, Repr

/-- What `execute_query` lets escape to its caller: the `RuntimeError`s the
manager raises itself, or an exception of the operation propagated
unchanged. -/
inductive QueryErr
  | runtime (msg : String)
  | uncaught (e : OpErr)
  deriving DecidableEq, Repr

/-- `Neo4jManager.execute_query`.  The `wait_for_connection` call is
thread-and-clock based, so its outcome is abstracted as the `waitOutcome`
parameter (`none` = timed out, `some st1` = returned `True` with the
manager left in state `st1`).  The last component counts how many times the
underlying operation `op` was invoked. -/
def execute_query (st : NeoState) (waitOutcome : Option NeoState) (wait : Bool)
    (op : Except OpErr (List String)) : Except QueryErr (List String) × NeoState × Nat :=
  let run (st1 : NeoState) : Except QueryErr (List String) × NeoState × Nat :=
    -- `with self.get_session() as session:` — raises when not connected;
    -- that RuntimeError is not a ServiceUnavailable, so it propagates.
    if is_connected st1 then
      match op with
      | .ok rows => (.ok rows, st1, 1)
      | .error (.serviceUnavailable _) =>
        (.error (.runtime "Neo4j service is currently unavailable"),
         { st1 with initialized := false }, 1)
      | .error (.other m) => (.error (.uncaught (.other m)), st1, 1)
    else
      (.error (.runtime "Neo4j driver is not initialized. Connection may still be establishing."),
       st1, 0)
  if is_connected st then run st
  else if wait then
    match waitOutcome with
    | none => (.error (.runtime "Neo4j connection not available after waiting"), st, 0)
    | some st1 => run st1
  else (.error (.runtime "Neo4j driver is not initialized"), st, 0)

/-! ## The job pipeline (`app/api/jobs.py: load_data`)

`hugegraph_service.process_data` is imported by `jobs.py` but its module is
not part of the sources; following §6 of the spec it is the
`ExternalLoaderAdapter` boundary, so its outcome (a fresh job id whose
output directory now exists, or a raised error) is a parameter of the
pipeline, as are the Neo4j bulk load, the annotation notifier and the
statistics computed by `generate_graph_info`. -/

/-- Successful outcome of `hugegraph_service.process_data`: the fresh job
id (also the basename of the created output directory) and the directory's
modification time. -/
structure LoaderOk where
  jobId : String
  mtime : Nat
  deriving DecidableEq, Repr

/-- Outcome of `neo4j_service.load_data_to_neo4j`: either a structured
result (status `success` or `error`) or an exception escaping the service
(e.g. the copy-to-shared-volume step re-raising). -/
inductive NeoOutcome
  | result (r : NeoLoadResult)
  | raised (msg : String)
  deriving DecidableEq, Repr

/-- External-collaborator outcomes for one request, plus the request time.
`notify` is the annotation notifier, consulted with a job id and a writer
type; `graphInfo` is the record `generate_graph_info` computes on the
success path. -/
structure PipelineEnv where
  now : Nat
  parseOk : Bool
  loader : Except String LoaderOk
  neo : NeoOutcome
  notify : String → String → Option String
  graphInfo : JobRecord

/-- HTTP error detail, kept structured so that "the surfaced error carries
the collaborator's message" is a statement about constructors rather than
string formatting:

* `notifyFail` — the dict `{"message": error_msg, "job_id": job_id}`;
* `loaderFail` — the dict `{"message", "job_id", "stdout", "stderr"}`
  raised by the legacy loader step;
* `processing` — the blanket handler re-wrapping a raised `HTTPException`
  as `"Error processing request: {status}: {detail}"`;
* `processingText` — the same handler wrapping a non-HTTP exception. -/
inductive ErrDetail
  | text (s : String)
  | notifyFail (message jobId : String)
  | loaderFail (message jobId stdout stderr : String)
  | processing (status : Nat) (inner : ErrDetail)
  | processingText (s : String)
  deriving DecidableEq, Repr

/-- The error surfaced to the HTTP caller. -/
structure ApiError where
  status : Nat
  detail : ErrDetail
  deriving DecidableEq, Repr

/-- Whether a detail carries `msg` as the failing collaborator's message
(looking through the blanket handler's wrapping). -/
def ErrDetail.mentions : ErrDetail → String → Bool
  | .text s, m => s == m
  | .notifyFail s _, m => s == m
  | .loaderFail s _ _ _, m => s == m
  | .processing _ i, m => i.mentions m
  | .processingText s, m => s == m

/-- Whether a detail carries `out` as the loader's raw stdout. -/
def ErrDetail.carriesStdout : ErrDetail → String → Bool
  | .loaderFail _ _ so _, out => so == out
  | .processing _ i, out => i.carriesStdout out
  | _, _ => false

/-- Whether a detail carries `err` as the loader's raw stderr. -/
def ErrDetail.carriesStderr : ErrDetail → String → Bool
  | .loaderFail _ _ _ se, err => se == err
  | .processing _ i, err => i.carriesStderr err
  | _, _ => false

/-- Successful response of `/api/load` (fields the claims inspect). -/
structure LoadResponse where
  jobId : String
  message : String
  deriving DecidableEq, Repr

/-- Full mutable state the pipeline touches. -/
structure SysState where
  disk : DiskState
  mgr : SessionMgr
  deriving DecidableEq, Repr

/-- Notify step onward of `jobs.load_data` (from line 73): on a notifier
error, re-notify `get_job_id_to_use()` fire-and-forget, delete the job's
output directory and raise; on success save the graph info, select the job
and consume + clean up the session.  The last component is the ordered list
of `(job_id, writer_type)` notifier invocations. -/
def notifyAndFinalize (env : PipelineEnv) (d1 : DiskState) (mgr1 : SessionMgr)
    (sessionId writerType jobId : String) (neoRes : Option NeoLoadResult) :
    Except ApiError LoadResponse × SysState × List (String × String) :=
  match env.notify jobId writerType with
  | some msg =>
    let notified :=
      match get_job_id_to_use d1 none with
      | some sid => [(jobId, writerType), (sid, writerType)]
      | none => [(jobId, writerType)]
    let d2 := if pathExists d1 jobId then removeJobDir d1 jobId else d1
    -- the inner HTTPException(500, {...}) is caught by the blanket
    -- `except Exception` handler and re-wrapped
    (.error ⟨500, .processing 500 (.notifyFail msg jobId)⟩, ⟨d2, mgr1⟩, notified)
  | none =>
    let d2 := save_graph_info d1 env.graphInfo
    let d3 := save_selected_job_id d2 jobId
    let successMessage :=
      if (match neoRes with | some r => r.status == "success" | none => false) then
        "Graph generated successfully using " ++ writerType ++ " writer and loaded to Neo4j"
      else
        "Graph generated successfully using " ++ writerType ++ " writer"
    let mgr2 := consume_session mgr1 env.now sessionId
    let mgr3 := cleanup_session true mgr2 sessionId
    (.ok ⟨jobId, successMessage⟩, ⟨d3, mgr3⟩, [(jobId, writerType)])

/-- `jobs.load_data` (the `/api/load` endpoint): validate the session,
parse the JSON forms, run the loader, conditionally bulk-load into Neo4j
(persisting the structured result), notify the annotation service and
finalize.  Raised exceptions reach the caller through the endpoint's
blanket `except Exception` handler, which wraps without any cleanup. -/
def load_data (env : PipelineEnv) (st : SysState) (sessionId writerType : String) :
    Except ApiError LoadResponse × SysState × List (String × String) :=
  match get_session st.mgr env.now sessionId with
  | (none, mgr1) =>
    (.error ⟨400, .text "Invalid or expired session"⟩, ⟨st.disk, mgr1⟩, [])
  | (some s, mgr1) =>
    if s.uploadedFiles.isEmpty then
      (.error ⟨400, .text "No files uploaded in session"⟩, ⟨st.disk, mgr1⟩, [])
    else if !env.parseOk then
      (.error ⟨400, .text "Invalid JSON"⟩, ⟨st.disk, mgr1⟩, [])
    else
      match env.loader with
      | .error e =>
        -- process_data raised; the blanket handler wraps it, no cleanup
        (.error ⟨500, .processingText e⟩, ⟨st.disk, mgr1⟩, [])
      | .ok lo =>
        -- the loader created the job's output directory
        let d0 := { st.disk with entries := st.disk.entries ++ [⟨lo.jobId, lo.mtime, true⟩] }
        if writerType == "neo4j" then
          match env.neo with
          | .raised m =>
            -- the exception aborts the request via the blanket handler;
            -- nothing is rolled back on this path
            (.error ⟨500, .processingText m⟩, ⟨d0, mgr1⟩, [])
          | .result r =>
            let d1 := { d0 with neoResults := d0.neoResults ++ [(lo.jobId, r)] }
            notifyAndFinalize env d1 mgr1 sessionId writerType lo.jobId (some r)
        else
          notifyAndFinalize env d0 mgr1 sessionId writerType lo.jobId none

/-! ## Legacy stage-and-bulk-load step (`app.py: load_data`, lines 794–821) -/

/-- One run of the external HugeGraph loader subprocess as observed by the
legacy endpoint: its exit code, captured stdout/stderr, whether it created
the job's output directory, the files it left there and the directory's
modification time. -/
structure LoaderRun where
  exitCode : Int
  stdout : String
  stderr : String
  createdDir : Bool
  manifestFiles : List String
  mtime : Nat
  deriving DecidableEq, Repr

/-- The stage-and-bulk-load step of the legacy `app.py: load_data`: run the
loader, and on a nonzero exit code or an empty `get_output_files` manifest
delete any created output directory and raise an `HTTPException` whose
detail carries the raw stdout/stderr.  On success the manifest is returned
(the subsequent `schema.json`/`job_metadata.json` writes land inside the
job directory and are not tracked). -/
def stageAndBulkLoad (d : DiskState) (jobId : String) (run : LoaderRun) :
    Except ErrDetail (List String) × DiskState :=
  let d0 :=
    if run.createdDir then { d with entries := d.entries ++ [⟨jobId, run.mtime, true⟩] } else d
  if run.exitCode != 0 then
    let d1 := if pathExists d0 jobId then removeJobDir d0 jobId else d0
    (.error (.loaderFail ("HugeGraph loader failed with exit code " ++ toString run.exitCode)
      jobId run.stdout run.stderr), d1)
  else
    let manifest := if pathExists d0 jobId then run.manifestFiles else []
    if manifest.isEmpty then
      let d1 := if pathExists d0 jobId then removeJobDir d0 jobId else d0
      (.error (.loaderFail "No output files generated" jobId run.stdout run.stderr), d1)
    else
      (.ok manifest, d0)

/-- The blanket `except Exception` handler of the legacy endpoint: the
inner `HTTPException(500, detail)` surfaces as
`HTTPException(500, "Error processing request: 500: {detail}")`. -/
def legacySurface (e : ErrDetail) : ApiError :=
  ⟨500, .processing 500 e⟩

/-! ## Spec-side comparison definition and concrete fixtures -/

/-- Spec-side reading of the third resolution tier, for comparison with the
code's `get_latest_directory`: the basename of the most-recently-modified
*directory* (not file) among the base output directory's children, with the
same stable tie-breaking. -/
def latest_job_directory_spec (d : DiskState) : Option String :=
  match d.entries.filter (fun e => e.isDir) with
  | [] => none
  | e :: es => some ((es.foldl (fun best x => if best.mtime < x.mtime then x else best) e).name)

/-- A live upload session holding one file. -/
def sampleSession : Session := ⟨10, ["a.csv"], .active⟩

/-- A session manager holding just `sampleSession` under id `"s"`. -/
def sampleMgr : SessionMgr := ⟨[("s", sampleSession)], ["s"]⟩

/-- An empty base output directory. -/
def emptyDisk : DiskState := ⟨[], none, none, []⟩

/-- A base output directory with a previously selected job `"j0"`. -/
def selDisk : DiskState := ⟨[⟨"j0", 1, true⟩], none, some "j0", []⟩

/-- The history record computed for the sample job. -/
def sampleRecord : JobRecord := ⟨"j1", "metta", 0, 0⟩

/-- Collaborator outcomes for a fully successful submission of job `"j1"`. -/
def successEnv : PipelineEnv :=
  { now := 0, parseOk := true, loader := .ok ⟨"j1", 5⟩,
    neo := .result ⟨"success", ""⟩, notify := fun _ _ => none,
    graphInfo := sampleRecord }

/-- Same run, but the annotation notifier fails for the new job `"j1"`. -/
def failNotifyEnv : PipelineEnv :=
  { successEnv with
    notify := fun id _ => if id == "j1" then some "annotation down" else none }

/-- Same run, but the Neo4j bulk load reports a structured error result. -/
def degradedEnv : PipelineEnv :=
  { successEnv with neo := .result ⟨"error", "connection lost"⟩ }

/-- Same run, but the Neo4j bulk load raises (e.g. the copy to the shared
volume fails and the service re-raises). -/
def raisedEnv : PipelineEnv :=
  { successEnv with neo := .raised "copy failed" }

/-- The base output directory of the C4 failing input: one job directory
`job1` and the plain file `history.json`, the file more recently
modified. -/
def mixedDisk : DiskState :=
  ⟨[⟨"job1", 10, true⟩, ⟨"history.json", 20, false⟩], some (.parsed "" []), none, []⟩

/-- A loader run that exits with code 1. -/
def failRun : LoaderRun := ⟨1, "OUT", "ERR", true, ["f.csv"], 5⟩

/-- Boolean membership in a list of strings (used to characterise the
sweep below). -/
def memB (x : String) (l : List String) : Bool :=
  l.any (fun y => x == y)

/-- A manager holding one stale-active, one live, one already-expired and
one consumed session (used as the sweep witness). -/
def sweepMgr : SessionMgr :=
  ⟨[("old", ⟨3, ["a.csv"], .active⟩), ("live", ⟨100, [], .active⟩),
    ("gone", ⟨2, [], .expired⟩), ("used", ⟨1, [], .consumed⟩)],
   ["old", "live", "gone", "used"]⟩

/-! ## Helper lemmas -/

theorem filter_self_idem {α : Type} (p : α → Bool) (l : List α) :
    (l.filter p).filter p = l.filter p := by
  induction l with
  | nil => rfl
  | cons a t ih =>
    by_cases h : p a = true
    · simp [List.filter_cons, h, ih]
    · simp only [Bool.not_eq_true] at h
      simp [List.filter_cons, h, ih]

theorem lookup_mem {β : Type} (l : List (String × β)) (id : String) (b : β)
    (h : l.lookup id = some b) : (id, b) ∈ l := by
  induction l with
  | nil => simp [List.lookup] at h
  | cons a t ih =>
    rw [List.lookup] at h
    by_cases h1 : id = a.1
    · simp [h1] at h
      subst h1 h
      exact List.mem_cons_self _ _
    · have hb : (id == a.1) = false := by simpa using h1
      rw [hb] at h
      exact List.mem_cons_of_mem _ (ih h)

theorem lookup_eq_none_forall {β : Type} (l : List (String × β)) (id : String)
    (h : l.lookup id = none) : ∀ p ∈ l, (p.1 == id) = false := by
  induction l with
  | nil => intro p hp; simp at hp
  | cons a t ih =>
    intro p hp
    rw [List.lookup] at h
    by_cases h1 : id = a.1
    · simp [h1] at h
    · have hb : (id == a.1) = false := by simpa using h1
      rw [hb] at h
      rcases List.mem_cons.mp hp with h2 | h2
      · subst h2; simpa using fun e => h1 e.symm
      · exact ih h p h2

theorem lookup_filter_out {β : Type} (l : List (String × β)) (id : String) :
    (l.filter (fun p => !(p.1 == id))).lookup id = none := by
  induction l with
  | nil => rfl
  | cons a t ih =>
    by_cases h1 : a.1 = id
    · simp [List.filter_cons, h1, ih]
    · have hb : (a.1 == id) = false := by simpa using h1
      have hb2 : (id == a.1) = false := by simpa using fun e => h1 e.symm
      simp [List.filter_cons, hb, List.lookup, hb2, ih]

theorem lookup_setSession_self (m : SessionMgr) (id : String) (f : Session → Session) :
    (setSession m id f).sessions.lookup id = (m.sessions.lookup id).map f := by
  show (m.sessions.map _).lookup id = _
  induction m.sessions with
  | nil => rfl
  | cons a t ih =>
    by_cases h1 : a.1 = id
    · have hb : (id == a.1) = true := by simpa using h1.symm
      simp only [List.map_cons, if_pos h1]
      simp [List.lookup, hb]
    · have hb2 : (id == a.1) = false := by simpa using fun e => h1 e.symm
      simp only [List.map_cons, if_neg h1]
      simp [List.lookup, hb2, ih]

theorem lookup_setSession_other (m : SessionMgr) (id x : String) (f : Session → Session)
    (h : x ≠ id) :
    (setSession m id f).sessions.lookup x = m.sessions.lookup x := by
  show (m.sessions.map _).lookup x = _
  induction m.sessions with
  | nil => rfl
  | cons a t ih =>
    by_cases h1 : a.1 = id
    · have hb2 : (x == a.1) = false := by simpa using fun e => h (e.trans h1)
      simp only [List.map_cons, if_pos h1]
      simp [List.lookup, hb2, ih]
    · simp only [List.map_cons, if_neg h1]
      by_cases h2 : x = a.1
      · have hb : (x == a.1) = true := by simpa using h2
        simp [List.lookup, hb]
      · have hb2 : (x == a.1) = false := by simpa using h2
        simp [List.lookup, hb2, ih]

theorem pathExists_append (d : DiskState) (e : Entry) (x : String) :
    pathExists { d with entries := d.entries ++ [e] } x =
      (pathExists d x || (e.name == x)) := by
  simp [pathExists]

theorem pathExists_removeJobDir_self (d : DiskState) (x : String) :
    pathExists (removeJobDir d x) x = false := by
  show (d.entries.filter _).any _ = false
  induction d.entries with
  | nil => rfl
  | cons a t ih =>
    by_cases h : a.name = x
    · have hb : (a.name == x) = true := by simpa using h
      simp [List.filter_cons, hb, ih]
    · have hb : (a.name == x) = false := by simpa using h
      simp [List.filter_cons, hb, List.any_cons, ih]

/-! ## Claim theorems -/

/-- C10: when the durable history file is absent or holds malformed JSON,
`get_history` returns the empty skeleton `{"selected_job_id": "",
"history": []}` without raising, making a corrupt history file
indistinguishable from a missing one. -/
theorem get_history_corrupt_equals_absent (d : DiskState)
    (h : d.historyFile = none ∨ d.historyFile = some .malformed) :
    get_history d = ("", []) ∧
    get_history d = get_history { d with historyFile := none } := by
  rcases h with h | h <;> simp [get_history, load_json_file, h]

theorem get_history_corrupt_equals_absent_witness :
    get_history ⟨[], some .malformed, none, []⟩ = ("", []) ∧
    get_history ⟨[], some .malformed, none, []⟩ =
      get_history { DiskState.mk [] (some .malformed) none [] with historyFile := none } :=
  get_history_corrupt_equals_absent ⟨[], some .malformed, none, []⟩ (Or.inr rfl)

/-- C9: `cleanup_session` deletes the session's backing directory and its
map entry, is idempotent, and on an id that is unknown to the store (no map
entry, no staging directory) it succeeds as a no-op. -/
theorem cleanup_session_deletes_idempotent (m : SessionMgr) (id : String) :
    (cleanup_session true m id).sessions.lookup id = none ∧
    id ∉ (cleanup_session true m id).dirs ∧
    cleanup_session true (cleanup_session true m id) id = cleanup_session true m id ∧
    ((m.sessions.lookup id = none ∧ id ∉ m.dirs) → cleanup_session true m id = m) := by
  refine ⟨?_, ?_, ?_, ?_⟩
  · simpa [cleanup_session] using lookup_filter_out m.sessions id
  · simp [cleanup_session, List.mem_filter]
  · simp [cleanup_session, filter_self_idem]
  · rintro ⟨h1, h2⟩
    have hs : m.sessions.filter (fun p => !(p.1 == id)) = m.sessions :=
      List.filter_eq_self.mpr (fun p hp => by
        simpa using lookup_eq_none_forall m.sessions id h1 p hp)
    have hd : m.dirs.filter (fun x => !(x == id)) = m.dirs :=
      List.filter_eq_self.mpr (fun x hx => by
        have hne : x ≠ id := fun e => h2 (e ▸ hx)
        simpa using hne)
    show SessionMgr.mk (m.sessions.filter (fun p => !(p.1 == id)))
      (m.dirs.filter (fun x => !(x == id))) = m
    rw [hs, hd]

theorem cleanup_session_deletes_idempotent_witness :
    ((cleanup_session true sampleMgr "s").sessions.lookup "s" = none ∧
     cleanup_session true (cleanup_session true sampleMgr "s") "s" =
       cleanup_session true sampleMgr "s") ∧
    cleanup_session true sampleMgr "zzz" = sampleMgr := by
  have h1 := cleanup_session_deletes_idempotent sampleMgr "s"
  have h2 := cleanup_session_deletes_idempotent sampleMgr "zzz"
  exact ⟨⟨h1.1, h1.2.2.1⟩, h2.2.2.2 ⟨by decide, by decide⟩⟩

/-- C6: when a query is executed while the manager is connected and the
underlying operation fails with a `ServiceUnavailable` condition, the
manager resets `_initialized` to `False` and re-raises a `RuntimeError`,
and the operation was invoked exactly once — the manager does not retry
it. -/
theorem execute_query_service_unavailable_resets
    (st : NeoState) (waitOutcome : Option NeoState) (wait : Bool) (m : String)
    (hconn : is_connected st = true) :
    execute_query st waitOutcome wait (.error (.serviceUnavailable m)) =
      (.error (.runtime "Neo4j service is currently unavailable"),
       { st with initialized := false }, 1) := by
  simp [execute_query, hconn]

theorem execute_query_service_unavailable_resets_witness :
    execute_query ⟨true, true⟩ none true (.error (.serviceUnavailable "boom")) =
      (.error (.runtime "Neo4j service is currently unavailable"), ⟨false, true⟩, 1) :=
  execute_query_service_unavailable_resets ⟨true, true⟩ none true "boom" rfl

/-- C4 (failing input): with job directory `job1` (mtime 10) and the plain
file `history.json` (mtime 20) under the base output directory, no explicit
id and no persisted selection, `get_job_id_to_use` returns
`"history.json"` — a plain file — because `get_latest_directory` globs
`*`, while the most-recently-modified job *directory* (the spec's and the
docstring's tier) is `job1`. -/
theorem get_job_id_to_use_latest_tier_returns_file :
    get_job_id_to_use mixedDisk none = some "history.json" ∧
    latest_job_directory_spec mixedDisk = some "job1" ∧
    (mixedDisk.entries.filter (fun e => e.isDir)).map (fun e => e.name) = ["job1"] ∧
    get_job_id_to_use mixedDisk none ≠ latest_job_directory_spec mixedDisk := by
  refine ⟨rfl, rfl, rfl, ?_⟩
  decide

/-- C5: for an active session, adding a filename already present fails with
a duplicate-file error and leaves the manager (hence the session's file
list) unchanged; adding a new filename succeeds and appends it to the end
of the session's list, leaving every other session untouched. -/
theorem upload_duplicate_rejected_new_appended
    (m : SessionMgr) (now : Nat) (id f : String) (s : Session)
    (hs : m.sessions.lookup id = some s) (hact : now < s.expiresAt) :
    (f ∈ s.uploadedFiles →
      uploadOneFile m now id f = (some (.duplicate f), m)) ∧
    (f ∉ s.uploadedFiles →
      (uploadOneFile m now id f).1 = none ∧
      (uploadOneFile m now id f).2.sessions.lookup id =
        some { s with uploadedFiles := s.uploadedFiles ++ [f] } ∧
      (∀ x, x ≠ id →
        (uploadOneFile m now id f).2.sessions.lookup x = m.sessions.lookup x)) := by
  constructor
  · intro hdup
    simp [uploadOneFile, get_session, hs, hact, hdup]
  · intro hnew
    have hres : uploadOneFile m now id f =
        (none, setSession m id
          (fun t => { t with uploadedFiles := t.uploadedFiles ++ [f] })) := by
      simp [uploadOneFile, add_file_to_session, get_session, hs, hact, hnew]
    refine ⟨by rw [hres], ?_, ?_⟩
    · rw [hres]
      simp [lookup_setSession_self, hs]
    · intro x hx
      rw [hres]
      exact lookup_setSession_other m id x _ hx

theorem upload_duplicate_rejected_new_appended_witness :
    ("a.csv" ∈ sampleSession.uploadedFiles →
      uploadOneFile sampleMgr 0 "s" "a.csv" = (some (.duplicate "a.csv"), sampleMgr)) ∧
    ("a.csv" ∉ sampleSession.uploadedFiles →
      (uploadOneFile sampleMgr 0 "s" "a.csv").1 = none ∧
      (uploadOneFile sampleMgr 0 "s" "a.csv").2.sessions.lookup "s" =
        some { sampleSession with uploadedFiles := sampleSession.uploadedFiles ++ ["a.csv"] } ∧
      (∀ x, x ≠ "s" →
        (uploadOneFile sampleMgr 0 "s" "a.csv").2.sessions.lookup x =
          sampleMgr.sessions.lookup x)) :=
  upload_duplicate_rejected_new_appended sampleMgr 0 "s" "a.csv" sampleSession rfl
    (by decide)

theorem get_history_congr (d1 d2 : DiskState) (h : d1.historyFile = d2.historyFile) :
    get_history d1 = get_history d2 := by
  simp only [get_history]
  rw [h]

/-- C2: the legacy stage-and-bulk-load step fails exactly when the loader
exits nonzero or the artifact manifest is empty; on such a failure any
created output directory for the job is deleted, the surfaced error carries
the loader's raw stdout and stderr, and the stored history (hence its
length) is unchanged. -/
theorem stage_and_bulk_load_fails_iff
    (d : DiskState) (jobId : String) (run : LoaderRun)
    (hfresh : pathExists d jobId = false) :
    ((∃ e, (stageAndBulkLoad d jobId run).1 = .error e) ↔
      (run.exitCode ≠ 0 ∨ (if run.createdDir then run.manifestFiles else []) = [])) ∧
    (∀ e, (stageAndBulkLoad d jobId run).1 = .error e →
      pathExists (stageAndBulkLoad d jobId run).2 jobId = false ∧
      (legacySurface e).detail.carriesStdout run.stdout = true ∧
      (legacySurface e).detail.carriesStderr run.stderr = true ∧
      (stageAndBulkLoad d jobId run).2.historyFile = d.historyFile ∧
      (get_history (stageAndBulkLoad d jobId run).2).2.length =
        (get_history d).2.length) := by
  have hgh : ∀ dErr : DiskState, dErr.historyFile = d.historyFile →
      (get_history dErr).2.length = (get_history d).2.length := by
    intro dErr h
    rw [get_history_congr dErr d h]
  by_cases hc : run.createdDir = true
  · have hpe : pathExists { d with entries := d.entries ++ [⟨jobId, run.mtime, true⟩] }
        jobId = true := by
      simp [pathExists_append]
    by_cases hz : run.exitCode = 0
    · cases hml : run.manifestFiles with
      | nil =>
        have hres : stageAndBulkLoad d jobId run =
            (.error (.loaderFail "No output files generated" jobId run.stdout run.stderr),
             removeJobDir { d with entries := d.entries ++ [⟨jobId, run.mtime, true⟩] }
               jobId) := by
          simp [stageAndBulkLoad, hz, hc, hpe, hml]
        rw [hres]
        refine ⟨?_, ?_⟩
        · simp [hz, hc, hml]
        · intro e he
          obtain rfl : _ = e := (Except.error.injEq _ _).mp he
          exact ⟨pathExists_removeJobDir_self _ _, by simp [legacySurface,
            ErrDetail.carriesStdout], by simp [legacySurface, ErrDetail.carriesStderr],
            rfl, hgh _ rfl⟩
      | cons a l =>
        have hres : stageAndBulkLoad d jobId run =
            (.ok (a :: l),
             { d with entries := d.entries ++ [⟨jobId, run.mtime, true⟩] }) := by
          simp [stageAndBulkLoad, hz, hc, hpe, hml]
        rw [hres]
        refine ⟨?_, ?_⟩
        · simp [hz, hc, hml]
        · intro e he
          exact absurd he (by simp)
    · have hres : stageAndBulkLoad d jobId run =
          (.error (.loaderFail
            ("HugeGraph loader failed with exit code " ++ toString run.exitCode)
            jobId run.stdout run.stderr),
           removeJobDir { d with entries := d.entries ++ [⟨jobId, run.mtime, true⟩] }
             jobId) := by
        simp [stageAndBulkLoad, hz, hc, hpe]
      rw [hres]
      refine ⟨?_, ?_⟩
      · simp [hz]
      · intro e he
        obtain rfl : _ = e := (Except.error.injEq _ _).mp he
        exact ⟨pathExists_removeJobDir_self _ _, by simp [legacySurface,
          ErrDetail.carriesStdout], by simp [legacySurface, ErrDetail.carriesStderr],
          rfl, hgh _ rfl⟩
  · have hc2 : run.createdDir = false := by simpa using hc
    by_cases hz : run.exitCode = 0
    · have hres : stageAndBulkLoad d jobId run =
          (.error (.loaderFail "No output files generated" jobId run.stdout run.stderr),
           d) := by
        simp [stageAndBulkLoad, hz, hc2, hfresh]
      rw [hres]
      refine ⟨?_, ?_⟩
      · simp [hz, hc2]
      · intro e he
        obtain rfl : _ = e := (Except.error.injEq _ _).mp he
        exact ⟨hfresh, by simp [legacySurface, ErrDetail.carriesStdout],
          by simp [legacySurface, ErrDetail.carriesStderr], rfl, hgh _ rfl⟩
    · have hres : stageAndBulkLoad d jobId run =
          (.error (.loaderFail
            ("HugeGraph loader failed with exit code " ++ toString run.exitCode)
            jobId run.stdout run.stderr),
           d) := by
        simp [stageAndBulkLoad, hz, hc2, hfresh]
      rw [hres]
      refine ⟨?_, ?_⟩
      · simp [hz]
      · intro e he
        obtain rfl : _ = e := (Except.error.injEq _ _).mp he
        exact ⟨hfresh, by simp [legacySurface, ErrDetail.carriesStdout],
          by simp [legacySurface, ErrDetail.carriesStderr], rfl, hgh _ rfl⟩

theorem stage_and_bulk_load_fails_iff_witness :
    (∃ e, (stageAndBulkLoad emptyDisk "j1" failRun).1 = .error e) ∧
    pathExists (stageAndBulkLoad emptyDisk "j1" failRun).2 "j1" = false ∧
    (get_history (stageAndBulkLoad emptyDisk "j1" failRun).2).2.length =
      (get_history emptyDisk).2.length := by
  have h := stage_and_bulk_load_fails_iff emptyDisk "j1" failRun (by decide)
  have hfail : ∃ e, (stageAndBulkLoad emptyDisk "j1" failRun).1 = .error e :=
    h.1.mpr (Or.inl (by decide))
  obtain ⟨e, he⟩ := hfail
  exact ⟨⟨e, he⟩, (h.2 e he).1, (h.2 e he).2.2.2.2⟩

theorem memB_eq_true_iff (x : String) (l : List String) : memB x l = true ↔ x ∈ l := by
  constructor
  · intro h
    obtain ⟨a, ha, he⟩ := List.any_eq_true.mp h
    exact (eq_of_beq he) ▸ ha
  · intro h
    exact List.any_eq_true.mpr ⟨x, h, by simp⟩

theorem nodup_lookup_unique {β : Type} (l : List (String × β)) (id : String) (s s2 : β)
    (hnd : (l.map Prod.fst).Nodup) (hl : l.lookup id = some s) (hm : (id, s2) ∈ l) :
    s2 = s := by
  induction l with
  | nil => simp at hm
  | cons a t ih =>
    rw [List.map_cons, List.nodup_cons] at hnd
    by_cases h1 : id = a.1
    · have hb : (id == a.1) = true := by simpa using h1
      rw [List.lookup, hb] at hl
      obtain rfl : a.2 = s := by simpa using hl
      rcases List.mem_cons.mp hm with h2 | h2
      · exact congrArg Prod.snd h2
      · exact absurd (h1 ▸ List.mem_map.mpr ⟨(id, s2), h2, rfl⟩) hnd.1
    · have hb : (id == a.1) = false := by simpa using h1
      rw [List.lookup, hb] at hl
      rcases List.mem_cons.mp hm with h2 | h2
      · exact absurd (congrArg Prod.fst h2) h1
      · exact ih hnd.2 hl h2

theorem lookup_filter_memB_none {β : Type} (l : List (String × β)) (ids : List String)
    (id : String) (h : memB id ids = true) :
    (l.filter (fun p => !(memB p.1 ids))).lookup id = none := by
  induction l with
  | nil => rfl
  | cons a t ih =>
    by_cases h1 : a.1 = id
    · have hb : memB a.1 ids = true := h1 ▸ h
      simp [List.filter_cons, hb, ih]
    · by_cases h2 : memB a.1 ids = true
      · simp [List.filter_cons, h2, ih]
      · have hb2 : (id == a.1) = false := by simpa using fun e => h1 e.symm
        have h3 : memB a.1 ids = false := by simpa using h2
        simp [List.filter_cons, h3, List.lookup, hb2, ih]

theorem lookup_filter_memB_keep {β : Type} (l : List (String × β)) (ids : List String)
    (id : String) (h : memB id ids = false) :
    (l.filter (fun p => !(memB p.1 ids))).lookup id = l.lookup id := by
  induction l with
  | nil => rfl
  | cons a t ih =>
    by_cases h1 : a.1 = id
    · have hb : memB a.1 ids = false := h1 ▸ h
      have hbeq : (id == a.1) = true := by simpa using h1.symm
      simp [List.filter_cons, hb, List.lookup, hbeq]
    · have hbeq : (id == a.1) = false := by simpa using fun e => h1 e.symm
      by_cases h2 : memB a.1 ids = true
      · simp [List.filter_cons, h2, List.lookup, hbeq, ih]
      · have h3 : memB a.1 ids = false := by simpa using h2
        simp [List.filter_cons, h3, List.lookup, hbeq, ih]

theorem filter_out_map_upd (l : List (String × Session)) (id : String)
    (f : Session → Session) :
    ((l.map (fun p => if p.1 = id then (p.1, f p.2) else p)).filter
      (fun p => !(p.1 == id)))
    = l.filter (fun p => !(p.1 == id)) := by
  induction l with
  | nil => rfl
  | cons a t ih =>
    by_cases h1 : a.1 = id
    · have hb : (a.1 == id) = true := by simpa using h1
      simp only [List.map_cons, if_pos h1]
      simp [List.filter_cons, hb, ih]
    · have hb : (a.1 == id) = false := by simpa using h1
      simp only [List.map_cons, if_neg h1]
      simp [List.filter_cons, hb, ih]

theorem cleanup_step_sessions (ok : Bool) (acc : SessionMgr) (id : String) :
    (cleanup_session ok
      (setSession acc id (fun t => { t with status := .expired })) id).sessions
    = acc.sessions.filter (fun p => !(p.1 == id)) := by
  cases ok <;>
    exact filter_out_map_upd acc.sessions id
      (fun t => { t with status := SessionStatus.expired })

theorem cleanup_step_dirs (ok : Bool) (acc : SessionMgr) (id : String) :
    (cleanup_session ok
      (setSession acc id (fun t => { t with status := .expired })) id).dirs
    = if ok then acc.dirs.filter (fun x => !(x == id)) else acc.dirs := by
  cases ok <;> rfl

theorem sweep_fold_sessions (ids : List String) (okf : String → Bool) (m : SessionMgr) :
    (ids.foldl
      (fun acc id =>
        cleanup_session (okf id)
          (setSession acc id (fun t => { t with status := .expired })) id)
      m).sessions
    = m.sessions.filter (fun p => !(memB p.1 ids)) := by
  induction ids generalizing m with
  | nil => simp [memB]
  | cons id rest ih =>
    rw [List.foldl_cons, ih]
    rw [cleanup_step_sessions]
    rw [List.filter_filter]
    congr 1
    funext p
    simp [memB, List.any_cons, Bool.not_or, Bool.and_comm]

theorem sweep_fold_dirs (ids : List String) (okf : String → Bool) (m : SessionMgr) :
    (ids.foldl
      (fun acc id =>
        cleanup_session (okf id)
          (setSession acc id (fun t => { t with status := .expired })) id)
      m).dirs
    = m.dirs.filter (fun x => !(memB x ids && okf x)) := by
  induction ids generalizing m with
  | nil => simp [memB]
  | cons id rest ih =>
    rw [List.foldl_cons, ih, cleanup_step_dirs]
    by_cases hok : okf id = true
    · rw [if_pos hok, List.filter_filter]
      congr 1
      funext x
      by_cases hx : (x == id) = true
      · obtain rfl : x = id := eq_of_beq hx
        simp [memB, List.any_cons, hok]
      · have hx2 : (x == id) = false := by simpa using hx
        simp [memB, List.any_cons, hx2]
    · have hok2 : okf id = false := by simpa using hok
      rw [if_neg hok]
      congr 1
      funext x
      by_cases hx : (x == id) = true
      · obtain rfl : x = id := eq_of_beq hx
        simp [memB, List.any_cons, hok2]
      · have hx2 : (x == id) = false := by simpa using hx
        simp [memB, List.any_cons, hx2]

/-- C7: one sweep marks-and-cleans exactly the active sessions whose expiry
has passed (their map entries disappear), leaves every other session's
entry and staging directory untouched, returns the count of sessions so
cleaned, and the surviving session map and the count do not depend on
whether any individual session's directory delete failed. -/
theorem cleanup_expired_sessions_sweep (okf : String → Bool) (m : SessionMgr) (now : Nat)
    (hnd : (m.sessions.map Prod.fst).Nodup) :
    (cleanup_expired_sessions okf m now).1 =
      (m.sessions.filter
        (fun p => decide (p.2.expiresAt < now) && p.2.status == .active)).length ∧
    (∀ id s, m.sessions.lookup id = some s →
      (cleanup_expired_sessions okf m now).2.sessions.lookup id =
        (if s.expiresAt < now ∧ s.status = .active then none else some s)) ∧
    (∀ x, memB x ((m.sessions.filter
        (fun p => decide (p.2.expiresAt < now) && p.2.status == .active)).map Prod.fst) =
          false →
      (x ∈ (cleanup_expired_sessions okf m now).2.dirs ↔ x ∈ m.dirs)) ∧
    (∀ okf1 : String → Bool,
      (cleanup_expired_sessions okf1 m now).1 = (cleanup_expired_sessions okf m now).1 ∧
      (cleanup_expired_sessions okf1 m now).2.sessions =
        (cleanup_expired_sessions okf m now).2.sessions) := by
  have hsess : ∀ g : String → Bool,
      (cleanup_expired_sessions g m now).2.sessions =
        m.sessions.filter (fun p => !(memB p.1 ((m.sessions.filter
          (fun q => decide (q.2.expiresAt < now) && q.2.status == .active)).map
            Prod.fst))) := by
    intro g
    exact sweep_fold_sessions _ g m
  refine ⟨?_, ?_, ?_, ?_⟩
  · simp [cleanup_expired_sessions]
  · intro id s hl
    rw [hsess okf]
    by_cases hp : s.expiresAt < now ∧ s.status = .active
    · rw [if_pos hp]
      apply lookup_filter_memB_none
      apply (memB_eq_true_iff _ _).mpr
      apply List.mem_map.mpr
      refine ⟨(id, s), List.mem_filter.mpr ⟨lookup_mem _ _ _ hl, ?_⟩, rfl⟩
      simp [hp.1, hp.2]
    · rw [if_neg hp]
      have hmem : memB id ((m.sessions.filter
          (fun q => decide (q.2.expiresAt < now) && q.2.status == .active)).map
            Prod.fst) = false := by
        by_contra hcon
        have htr : memB id ((m.sessions.filter
            (fun q => decide (q.2.expiresAt < now) && q.2.status == .active)).map
              Prod.fst) = true := by
          simpa using hcon
        obtain ⟨q, hq, hq1⟩ := List.mem_map.mp ((memB_eq_true_iff _ _).mp htr)
        obtain ⟨hqm, hqP⟩ := List.mem_filter.mp hq
        have hpair : (id, q.2) = q := by
          cases q
          simpa using hq1.symm
        have hq2 : q.2 = s :=
          nodup_lookup_unique m.sessions id s q.2 hnd hl (hpair ▸ hqm)
        rw [hq2] at hqP
        simp at hqP
        exact hp ⟨hqP.1, hqP.2⟩
      rw [lookup_filter_memB_keep _ _ _ hmem, hl]
  · intro x hx
    have hd := sweep_fold_dirs ((m.sessions.filter
        (fun q => decide (q.2.expiresAt < now) && q.2.status == .active)).map
          Prod.fst) okf m
    rw [show (cleanup_expired_sessions okf m now).2.dirs =
        m.dirs.filter (fun y => !(memB y ((m.sessions.filter
          (fun q => decide (q.2.expiresAt < now) && q.2.status == .active)).map
            Prod.fst) && okf y)) from hd]
    simp [List.mem_filter, hx]
  · intro okf1
    exact ⟨rfl, by rw [hsess okf1, hsess okf]⟩

theorem cleanup_expired_sessions_sweep_witness :
    (cleanup_expired_sessions (fun _ => true) sweepMgr 5).1 = 1 ∧
    (cleanup_expired_sessions (fun _ => true) sweepMgr 5).2.sessions.lookup "old" =
      none ∧
    (cleanup_expired_sessions (fun _ => true) sweepMgr 5).2.sessions.lookup "live" =
      some ⟨100, [], .active⟩ := by
  have h := cleanup_expired_sessions_sweep (fun _ => true) sweepMgr 5 (by decide)
  refine ⟨?_, ?_, ?_⟩
  · rw [h.1]; rfl
  · have h2 := h.2.1 "old" ⟨3, ["a.csv"], .active⟩ rfl
    simpa using h2
  · have h2 := h.2.1 "live" ⟨100, [], .active⟩ rfl
    simpa using h2

/-- C8: after every fully successful job submission the stored history file
is rewritten whole, its content being exactly the new job's record
prepended to the previous history — length previous + 1, new record at
index 0. -/
theorem history_prepend_on_success (env : PipelineEnv) (st : SysState)
    (sessionId writerType : String) (resp : LoadResponse) (st1 : SysState)
    (log : List (String × String))
    (h : load_data env st sessionId writerType = (.ok resp, st1, log)) :
    st1.disk.historyFile =
      some (.parsed (get_history st.disk).1
        (env.graphInfo :: (get_history st.disk).2)) ∧
    (get_history st1.disk).2 = env.graphInfo :: (get_history st.disk).2 ∧
    (get_history st1.disk).2.length = (get_history st.disk).2.length + 1 := by
  have key : st1.disk.historyFile =
      some (.parsed (get_history st.disk).1
        (env.graphInfo :: (get_history st.disk).2)) := by
    simp only [load_data] at h
    split at h
    · simp at h
    · split at h
      · simp at h
      · split at h
        · simp at h
        · split at h
          · simp at h
          · split at h
            · split at h
              · simp at h
              · simp only [notifyAndFinalize] at h
                split at h
                · simp at h
                · simp only [Prod.mk.injEq] at h
                  rw [← h.2.1]
                  rfl
            · simp only [notifyAndFinalize] at h
              split at h
              · simp at h
              · simp only [Prod.mk.injEq] at h
                rw [← h.2.1]
                rfl
  refine ⟨key, ?_, ?_⟩
  · simp [get_history, load_json_file, key]
  · simp [get_history, load_json_file, key]

theorem history_prepend_on_success_witness :
    (load_data successEnv ⟨emptyDisk, sampleMgr⟩ "s" "metta").2.1.disk.historyFile =
      some (.parsed (get_history emptyDisk).1
        (successEnv.graphInfo :: (get_history emptyDisk).2)) :=
  (history_prepend_on_success successEnv ⟨emptyDisk, sampleMgr⟩ "s" "metta"
    ⟨"j1", "Graph generated successfully using metta writer"⟩
    (load_data successEnv ⟨emptyDisk, sampleMgr⟩ "s" "metta").2.1
    (load_data successEnv ⟨emptyDisk, sampleMgr⟩ "s" "metta").2.2
    rfl).1

theorem notify_fail_branch (env : PipelineEnv) (d1 : DiskState) (mgr1 : SessionMgr)
    (sid wt j msg : String) (r? : Option NeoLoadResult)
    (hmsg : env.notify j wt = some msg)
    (hpe : pathExists d1 j = true) :
    notifyAndFinalize env d1 mgr1 sid wt j r? =
      (.error ⟨500, .processing 500 (.notifyFail msg j)⟩,
       ⟨removeJobDir d1 j, mgr1⟩,
       match get_job_id_to_use d1 none with
       | some s2 => [(j, wt), (s2, wt)]
       | none => [(j, wt)]) := by
  simp [notifyAndFinalize, hmsg, hpe]

theorem rollback_conclusions (env : PipelineEnv) (st : SysState)
    (sessionId writerType msg : String) (lo : LoaderOk) (d1 : DiskState)
    (mgr1 : SessionMgr) (r? : Option NeoLoadResult)
    (hmsg : env.notify lo.jobId writerType = some msg)
    (hpe : pathExists d1 lo.jobId = true)
    (hhist : d1.historyFile = st.disk.historyFile)
    (hself : d1.selectedFile = st.disk.selectedFile)
    (hselpath : ∀ sel, pathExists st.disk sel = true → pathExists d1 sel = true)
    (hload : load_data env st sessionId writerType =
      notifyAndFinalize env d1 mgr1 sessionId writerType lo.jobId r?) :
    (load_data env st sessionId writerType).1 =
      .error ⟨500, .processing 500 (.notifyFail msg lo.jobId)⟩ ∧
    pathExists (load_data env st sessionId writerType).2.1.disk lo.jobId = false ∧
    (load_data env st sessionId writerType).2.1.disk.historyFile =
      st.disk.historyFile ∧
    (load_data env st sessionId writerType).2.1.disk.selectedFile =
      st.disk.selectedFile ∧
    (∀ sel, st.disk.selectedFile = some sel → sel ≠ "" →
      pathExists st.disk sel = true →
      (sel, writerType) ∈ (load_data env st sessionId writerType).2.2) := by
  have hnf := notify_fail_branch env d1 mgr1 sessionId writerType lo.jobId msg r? hmsg hpe
  rw [hload, hnf]
  refine ⟨rfl, ?_, ?_, ?_, ?_⟩
  · exact pathExists_removeJobDir_self d1 lo.jobId
  · exact hhist
  · exact hself
  · intro sel hsel hne hpx
    have hb : (sel != "") = true := by simpa using hne
    have hpx1 : pathExists d1 sel = true := hselpath sel hpx
    have hg : get_job_id_to_use d1 none = some sel := by
      simp [get_job_id_to_use, selectedTier, get_selected_job_id, hself, hsel, hb, hpx1]
    rw [hg]
    simp

/-- C1: when the annotation notifier returns an error for the new job, the
request fails with an error carrying the notifier's message, afterwards the
job's output directory no longer exists, the history file and selected-job
pointer are unchanged, and before rolling back the previously selected job
id (when one is set and valid, per the data-model invariant) is
re-notified, the outcome of that re-notification having no effect on the
result. -/
theorem notify_failure_rolls_back
    (env : PipelineEnv) (st : SysState) (sessionId writerType msg : String)
    (s : Session) (mgr1 : SessionMgr) (lo : LoaderOk)
    (hs : get_session st.mgr env.now sessionId = (some s, mgr1))
    (hfiles : s.uploadedFiles ≠ [])
    (hp : env.parseOk = true)
    (hl : env.loader = .ok lo)
    (hneo : writerType = "neo4j" → ∃ r, env.neo = .result r)
    (hmsg : env.notify lo.jobId writerType = some msg) :
    (load_data env st sessionId writerType).1 =
      .error ⟨500, .processing 500 (.notifyFail msg lo.jobId)⟩ ∧
    (ErrDetail.processing 500 (.notifyFail msg lo.jobId)).mentions msg = true ∧
    pathExists (load_data env st sessionId writerType).2.1.disk lo.jobId = false ∧
    (load_data env st sessionId writerType).2.1.disk.historyFile =
      st.disk.historyFile ∧
    (load_data env st sessionId writerType).2.1.disk.selectedFile =
      st.disk.selectedFile ∧
    (∀ sel, st.disk.selectedFile = some sel → sel ≠ "" →
      pathExists st.disk sel = true →
      (sel, writerType) ∈ (load_data env st sessionId writerType).2.2) ∧
    (∀ notify1 : String → String → Option String,
      notify1 lo.jobId writerType = env.notify lo.jobId writerType →
      load_data { env with notify := notify1 } st sessionId writerType =
        load_data env st sessionId writerType) := by
  have hfe : s.uploadedFiles.isEmpty = false := by
    cases hq : s.uploadedFiles with
    | nil => exact absurd hq hfiles
    | cons a t => rfl
  have hmen : (ErrDetail.processing 500 (.notifyFail msg lo.jobId)).mentions msg = true := by
    simp [ErrDetail.mentions]
  by_cases hw : (writerType == "neo4j") = true
  · obtain ⟨r, hr⟩ := hneo (by simpa using hw)
    have hload : ∀ env1 : PipelineEnv, env1.now = env.now → env1.parseOk = env.parseOk →
        env1.loader = env.loader → env1.neo = env.neo →
        load_data env1 st sessionId writerType =
          notifyAndFinalize env1
            { st.disk with
              entries := st.disk.entries ++ [⟨lo.jobId, lo.mtime, true⟩],
              neoResults := st.disk.neoResults ++ [(lo.jobId, r)] }
            mgr1 sessionId writerType lo.jobId (some r) := by
      intro env1 e0 e1 e2 e3
      simp [load_data, e0, e1, e2, e3, hs, hp, hl, hr, hfe, hw]
    have hpe : pathExists
        { st.disk with
          entries := st.disk.entries ++ [⟨lo.jobId, lo.mtime, true⟩],
          neoResults := st.disk.neoResults ++ [(lo.jobId, r)] } lo.jobId = true := by
      simp [pathExists, List.any_append]
    have hselpath : ∀ sel, pathExists st.disk sel = true → pathExists
        { st.disk with
          entries := st.disk.entries ++ [⟨lo.jobId, lo.mtime, true⟩],
          neoResults := st.disk.neoResults ++ [(lo.jobId, r)] } sel = true := by
      intro sel hpx
      simp only [pathExists] at hpx
      simp [pathExists, List.any_append, hpx]
    have hmain := rollback_conclusions env st sessionId writerType msg lo _ mgr1 (some r)
      hmsg hpe rfl rfl hselpath (hload env rfl rfl rfl rfl)
    refine ⟨hmain.1, hmen, hmain.2.1, hmain.2.2.1, hmain.2.2.2.1, hmain.2.2.2.2, ?_⟩
    intro notify1 hn1
    have hmsg1 : ({ env with notify := notify1 } : PipelineEnv).notify lo.jobId
        writerType = some msg := by
      show notify1 lo.jobId writerType = some msg
      rw [hn1, hmsg]
    rw [hload { env with notify := notify1 } rfl rfl rfl rfl, hload env rfl rfl rfl rfl,
      notify_fail_branch _ _ _ _ _ _ msg _ hmsg1 hpe,
      notify_fail_branch _ _ _ _ _ _ msg _ hmsg hpe]
  · have hw2 : (writerType == "neo4j") = false := by simpa using hw
    have hload : ∀ env1 : PipelineEnv, env1.now = env.now → env1.parseOk = env.parseOk →
        env1.loader = env.loader →
        load_data env1 st sessionId writerType =
          notifyAndFinalize env1
            { st.disk with
              entries := st.disk.entries ++ [⟨lo.jobId, lo.mtime, true⟩] }
            mgr1 sessionId writerType lo.jobId none := by
      intro env1 e0 e1 e2
      simp [load_data, e0, e1, e2, hs, hp, hl, hfe, hw2]
    have hpe : pathExists
        { st.disk with
          entries := st.disk.entries ++ [⟨lo.jobId, lo.mtime, true⟩] } lo.jobId = true := by
      simp [pathExists, List.any_append]
    have hselpath : ∀ sel, pathExists st.disk sel = true → pathExists
        { st.disk with
          entries := st.disk.entries ++ [⟨lo.jobId, lo.mtime, true⟩] } sel = true := by
      intro sel hpx
      simp only [pathExists] at hpx
      simp [pathExists, List.any_append, hpx]
    have hmain := rollback_conclusions env st sessionId writerType msg lo _ mgr1 none
      hmsg hpe rfl rfl hselpath (hload env rfl rfl rfl)
    refine ⟨hmain.1, hmen, hmain.2.1, hmain.2.2.1, hmain.2.2.2.1, hmain.2.2.2.2, ?_⟩
    intro notify1 hn1
    have hmsg1 : ({ env with notify := notify1 } : PipelineEnv).notify lo.jobId
        writerType = some msg := by
      show notify1 lo.jobId writerType = some msg
      rw [hn1, hmsg]
    rw [hload { env with notify := notify1 } rfl rfl rfl, hload env rfl rfl rfl,
      notify_fail_branch _ _ _ _ _ _ msg _ hmsg1 hpe,
      notify_fail_branch _ _ _ _ _ _ msg _ hmsg hpe]

theorem notify_failure_rolls_back_witness :
    (load_data failNotifyEnv ⟨selDisk, sampleMgr⟩ "s" "metta").1 =
      .error ⟨500, .processing 500 (.notifyFail "annotation down" "j1")⟩ ∧
    pathExists (load_data failNotifyEnv ⟨selDisk, sampleMgr⟩ "s" "metta").2.1.disk
      "j1" = false ∧
    (load_data failNotifyEnv ⟨selDisk, sampleMgr⟩ "s" "metta").2.1.disk.selectedFile =
      some "j0" ∧
    ("j0", "metta") ∈ (load_data failNotifyEnv ⟨selDisk, sampleMgr⟩ "s" "metta").2.2 := by
  have h := notify_failure_rolls_back failNotifyEnv ⟨selDisk, sampleMgr⟩ "s" "metta"
    "annotation down" sampleSession sampleMgr ⟨"j1", 5⟩ rfl (by decide) rfl rfl
    (fun hq => absurd hq (by decide)) rfl
  refine ⟨h.1, h.2.2.1, ?_, ?_⟩
  · rw [h.2.2.2.2.1]
    rfl
  · exact h.2.2.2.2.2.1 "j0" rfl (by decide) (by decide)

/-- C3 (counterexample): a Neo4j bulk-load failure that escapes as an
exception aborts the pipeline — the request errors out, the annotation
notifier is never invoked, no structured result is persisted (and nothing
reaches the history), contradicting the claim that every bulk-load failure
lets the pipeline proceed to notification and finalization. -/
theorem neo4j_raise_aborts_pipeline_cex :
    (load_data raisedEnv ⟨emptyDisk, sampleMgr⟩ "s" "neo4j").1 =
      .error ⟨500, .processingText "copy failed"⟩ ∧
    (load_data raisedEnv ⟨emptyDisk, sampleMgr⟩ "s" "neo4j").2.2 = [] ∧
    (load_data raisedEnv ⟨emptyDisk, sampleMgr⟩ "s" "neo4j").2.1.disk.neoResults = [] ∧
    (load_data raisedEnv ⟨emptyDisk, sampleMgr⟩ "s" "neo4j").2.1.disk.historyFile =
      emptyDisk.historyFile :=
  ⟨rfl, rfl, rfl, rfl⟩

/-- C3 (amended): when the Neo4j bulk load returns a structured result —
even one with error status — the pipeline is not aborted: the result is
persisted into the job's output directory and the pipeline proceeds to
notification; if notification then succeeds the job finalizes, its record
reaching the history (a degraded completion when the status is not
`success`).  A bulk-load failure escaping as an exception, by contrast,
aborts the request (see the counterexample). -/
theorem neo4j_error_result_does_not_abort
    (env : PipelineEnv) (st : SysState) (sessionId : String)
    (s : Session) (mgr1 : SessionMgr) (lo : LoaderOk) (r : NeoLoadResult)
    (hs : get_session st.mgr env.now sessionId = (some s, mgr1))
    (hfiles : s.uploadedFiles ≠ [])
    (hp : env.parseOk = true)
    (hl : env.loader = .ok lo)
    (hr : env.neo = .result r) :
    (lo.jobId, "neo4j") ∈ (load_data env st sessionId "neo4j").2.2 ∧
    (env.notify lo.jobId "neo4j" = none →
      (∃ resp, (load_data env st sessionId "neo4j").1 = .ok resp) ∧
      (lo.jobId, r) ∈ (load_data env st sessionId "neo4j").2.1.disk.neoResults ∧
      (get_history (load_data env st sessionId "neo4j").2.1.disk).2 =
        env.graphInfo :: (get_history st.disk).2) := by
  have hfe : s.uploadedFiles.isEmpty = false := by
    cases hq : s.uploadedFiles with
    | nil => exact absurd hq hfiles
    | cons a t => rfl
  have hload : load_data env st sessionId "neo4j" =
      notifyAndFinalize env
        { st.disk with
          entries := st.disk.entries ++ [⟨lo.jobId, lo.mtime, true⟩],
          neoResults := st.disk.neoResults ++ [(lo.jobId, r)] }
        mgr1 sessionId "neo4j" lo.jobId (some r) := by
    simp [load_data, hs, hp, hl, hr, hfe]
  constructor
  · rw [hload]
    cases hnn : env.notify lo.jobId "neo4j" with
    | some msg =>
      rw [notify_fail_branch _ _ _ _ _ _ msg _ hnn (by simp [pathExists, List.any_append])]
      cases hg : get_job_id_to_use
          { st.disk with
            entries := st.disk.entries ++ [⟨lo.jobId, lo.mtime, true⟩],
            neoResults := st.disk.neoResults ++ [(lo.jobId, r)] } none with
      | some s2 => simp [hg]
      | none => simp [hg]
    | none =>
      simp [notifyAndFinalize, hnn]
  · intro hnn
    have hnfs : load_data env st sessionId "neo4j" =
        (.ok ⟨lo.jobId,
          if (r.status == "success") = true then
            "Graph generated successfully using neo4j writer and loaded to Neo4j"
          else "Graph generated successfully using neo4j writer"⟩,
         ⟨save_selected_job_id
            (save_graph_info
              { st.disk with
                entries := st.disk.entries ++ [⟨lo.jobId, lo.mtime, true⟩],
                neoResults := st.disk.neoResults ++ [(lo.jobId, r)] }
              env.graphInfo)
            lo.jobId,
          cleanup_session true (consume_session mgr1 env.now sessionId) sessionId⟩,
         [(lo.jobId, "neo4j")]) := by
      rw [hload]
      simp [notifyAndFinalize, hnn]
    refine ⟨⟨_, by rw [hnfs]⟩, ?_, ?_⟩
    · rw [hnfs]
      simp [save_selected_job_id, save_graph_info]
    · rw [hnfs]
      rfl

theorem neo4j_error_result_does_not_abort_witness :
    ("j1", "neo4j") ∈ (load_data degradedEnv ⟨emptyDisk, sampleMgr⟩ "s" "neo4j").2.2 ∧
    (∃ resp, (load_data degradedEnv ⟨emptyDisk, sampleMgr⟩ "s" "neo4j").1 = .ok resp) ∧
    ("j1", ⟨"error", "connection lost"⟩) ∈
      (load_data degradedEnv ⟨emptyDisk, sampleMgr⟩ "s" "neo4j").2.1.disk.neoResults := by
  have h := neo4j_error_result_does_not_abort degradedEnv ⟨emptyDisk, sampleMgr⟩ "s"
    sampleSession sampleMgr ⟨"j1", 5⟩ ⟨"error", "connection lost"⟩ rfl (by decide)
    rfl rfl rfl
  exact ⟨h.1, (h.2 rfl).1, (h.2 rfl).2.1⟩

end AtomSpace
